import Mathlib

/-!
# go-tcp session and wire-protocol core: verification

A shallow embedding of the go-tcp event-messaging runtime and proofs about
its frame codec, heartbeat monitor, disconnection lifecycle, broadcast
fan-out and constructor initialization.

The repository carries two wire formats.  The canonical one (the client
package, client.go) is length-prefixed: `[4-byte big-endian length]
[1-byte type][payload]`.  The legacy server package uses newline-delimited
frames with `92 92 0` escaping.  Both are embedded here, each under the
namespace of its Go package.

Bytes are modelled as `Nat`; every Go integer conversion that truncates
(`uint16(..)`, `uint32(..)`) is rendered as an explicit modulus.  Functions
that can return before writing to the transport produce `Option`: `none`
means nothing reached the wire.  Go callbacks that may be `nil` are
modelled as `Option` values, so invoking `none` is exactly a nil-handler
dereference.
-/

namespace GoTcp

/-- A wire byte.  Values written by the encoders are always reduced modulo
256; payload bytes are carried through unchanged. -/
abbrev Byte := Nat

/-- `binary.BigEndian.PutUint16(buf, uint16(n))`: the two big-endian
base-256 digits of `n` truncated to 16 bits. -/
def be16 (n : Nat) : List Byte := [n / 2 ^ 8 % 256, n % 256]

/-- `binary.BigEndian.PutUint32(buf, uint32(n))`: the four big-endian
base-256 digits of `n` truncated to 32 bits. -/
def be32 (n : Nat) : List Byte :=
  [n / 2 ^ 24 % 256, n / 2 ^ 16 % 256, n / 2 ^ 8 % 256, n % 256]

/-- `binary.BigEndian.Uint16` / `Uint32`: read a big-endian value from the
given digit bytes. -/
def beVal (l : List Byte) : Nat := l.foldl (fun acc b => acc * 256 + b) 0

/-- A Go function value that may be `nil`: invoking it succeeds exactly
when the value is non-nil. -/
def invokeHandler (h : Option (Unit → Unit)) : Option Unit :=
  h.map fun f => f ()

/-! ## The canonical, length-prefixed codec (package `client`, client.go) -/

namespace Client

/-- client.go `emit`: encode a MESSAGE frame and write it.  The result is
the byte sequence handed to `connection.Write`, or `none` when the function
returns before writing (socket not connected, or event name longer than
`1<<16 - 2 = 65534` bytes). -/
def emit (connected : Bool) (event data : List Byte) : Option (List Byte) :=
  if connected = false then none
  else if 65534 < event.length then none
  else
    some (be32 (2 + event.length + data.length + 1) ++ [90]
      ++ (be16 event.length ++ event ++ data))

/-- Everything in an encoded MESSAGE frame that precedes the data bytes.
It depends on the data only through its length: the encoder never escapes
or reinterprets payload bytes. -/
def msgHeader (event : List Byte) (dataLen : Nat) : List Byte :=
  be32 (2 + event.length + dataLen + 1) ++ [90] ++ be16 event.length ++ event

/-- client.go `buildFrame`: a raw frame for the given type and payload,
`[4-byte big-endian length][type][payload]` with length `len(data)+1`. -/
def buildFrame (data : List Byte) (frameType : Byte) : List Byte :=
  be32 (data.length + 1) ++ [frameType] ++ data

/-- client.go `processMessageFrame`: split a MESSAGE payload into event
name and data.  `eventEnd := int(2 + eventLen)` adds in uint16, so it
wraps modulo 2^16 — at `eventLen = 65534` or `65535` the sum wraps to 0
or 1 and `frame[2:eventEnd]` panics.  `none` models both the silent drop
of a payload of at most 3 bytes and the Go slice panic when the bounds
check `2 ≤ eventEnd ≤ frameLen` fails. -/
def processMessageFrame (frame : List Byte) : Option (List Byte × List Byte) :=
  if 3 < frame.length then
    let eventLen := beVal (frame.take 2)
    let eventEnd := (2 + eventLen) % 2 ^ 16
    if 2 ≤ eventEnd ∧ eventEnd ≤ frame.length then
      some ((frame.drop 2).take (eventEnd - 2), frame.drop eventEnd)
    else none
  else none

/-- One iteration of client.go `listen` when every read is delivered in
full: read 4 length bytes, read exactly that many body bytes, split the
type byte from the payload.  `none` models loop exit (truncated input) and
the `payload[0]` panic on a declared length of zero. -/
def readFrame (input : List Byte) : Option (Byte × List Byte) :=
  if 4 ≤ input.length then
    let sizeVal := beVal (input.take 4)
    let body := (input.drop 4).take sizeVal
    if body.length = sizeVal then
      match body with
      | [] => none
      | t :: payload => some (t, payload)
    else none
  else none

/-- Decode one frame and, when it is a MESSAGE, recover the `(event, data)`
pair exactly as the client read loop dispatches it. -/
def decodeMessage (input : List Byte) : Option (List Byte × List Byte) :=
  match readFrame input with
  | some (t, payload) => if t = 90 then processMessageFrame payload else none
  | none => none

/-- `bufio.Reader.Read(p)` with `len(p) = n` over a chunked stream: take up
to `n` bytes from the next available chunk, leaving the remainder
buffered.  `none` is the read error at end of stream. -/
def bufRead (n : Nat) :
    List (List Byte) → Option (List Byte × List (List Byte))
  | [] => none
  | c :: rest =>
    some (c.take n, if n < c.length then c.drop n :: rest else rest)

/-- `io.ReadFull(r, p)` with `len(p) = n`: keep reading chunks until `n`
bytes have arrived; `none` when the stream ends first. -/
def readFull : Nat → List (List Byte) → Option (List Byte × List (List Byte))
  | n, [] => if n = 0 then some ([], []) else none
  | n, c :: rest =>
    if n ≤ c.length then
      some (c.take n, if n < c.length then c.drop n :: rest else rest)
    else
      match readFull (n - c.length) rest with
      | some (got, st) => some (c ++ got, st)
      | none => none

/-- One iteration of client.go `listen` over a chunked stream: a single
buffered read for the 4 length bytes — which the code abandons unless it
returns exactly 4 bytes — then a full read of the declared body.  `none`
models leaving the loop (and disconnecting). -/
def listenStep (chunks : List (List Byte)) :
    Option (Byte × List Byte × List (List Byte)) :=
  match bufRead 4 chunks with
  | none => none
  | some (size, rest) =>
    if size.length = 4 then
      match readFull (beVal size) rest with
      | none => none
      | some (body, rest') =>
        match body with
        | [] => none
        | t :: payload => some (t, payload, rest')
    else none

/-- The client `Socket` state touched by disconnection: the `connected`
flag, whether `connection.Close()` has been called, and how many times the
`disconnection` pseudo-event has been dispatched. -/
structure Socket where
  connected : Bool
  closed : Bool
  disconnectionFired : Nat
  deriving DecidableEq

/-- client.go `disconnect`: on an already-disconnected socket, close the
stream again and return; otherwise flip `connected`, close the stream and
dispatch the `disconnection` event. -/
def disconnect (s : Socket) : Socket :=
  if s.connected = false then { s with closed := true }
  else
    { connected := false, closed := true,
      disconnectionFired := s.disconnectionFired + 1 }

end Client

/-! ## Heartbeat monitor -/

/-- The liveness test the heartbeat monitor applies after its sleep
(server `startHeartbeat` and client.go line 104):
`lastHeartbeatAck == 0 || lastHeartbeatAck - start > intervalMs`.  Times
are Unix milliseconds; `start` is the time `t0` recorded before the
HEARTBEAT frame was sent. -/
def heartbeatDead (lastAck start intervalMs : Int) : Bool :=
  (lastAck == 0) || decide (intervalMs < lastAck - start)

/-! ## The legacy server package (newline-delimited wire format) -/

namespace Server

/-- `strings.ReplaceAll(event, "\n", "")` at the byte level: every byte 10
is removed. -/
def stripNewlines (event : List Byte) : List Byte :=
  event.filter fun b => b != 10

/-- The padding step of `buildMessageFrameHeader`: when the name length
would put a byte equal to 10 into the 2-byte big-endian length field, NUL
bytes are appended until it no longer does. -/
def padEventName (e : List Byte) : List Byte :=
  if e.length / 256 = 10 then e ++ List.replicate (256 - e.length % 256) 0
  else if e.length % 256 = 10 then e ++ [0]
  else e

/-- Server `buildMessageFrameHeader`: reject names longer than
`1<<16 - 2 = 65534` bytes, strip newlines, pad, and lay out
`[type][2-byte big-endian name length][name]`. -/
def buildMessageFrameHeader (event : List Byte) (frameType : Byte) :
    Option (List Byte) :=
  if 65534 < event.length then none
  else
    some ([frameType] ++ be16 (padEventName (stripNewlines event)).length
      ++ padEventName (stripNewlines event))

/-- `bytes.ReplaceAll(data, []byte{10}, []byte{92, 92, 0})`: every payload
byte 10 becomes the escape sequence `92 92 0`. -/
def escapeData (data : List Byte) : List Byte :=
  data.flatMap fun b => if b = 10 then [92, 92, 0] else [b]

/-- Server `buildMessageFrame`: header, escaped data, then the terminating
delimiter byte 10. -/
def buildMessageFrame (event data : List Byte) (frameType : Byte) :
    Option (List Byte) :=
  match buildMessageFrameHeader event frameType with
  | none => none
  | some f => some (f ++ escapeData data ++ [10])

/-- Server `send`: the bytes handed to `connection.Write`, or `none` when
the function returns before writing (socket not connected, or the frame
builder reported an error). -/
def send (connected : Bool) (event data : List Byte) (frameType : Byte) :
    Option (List Byte) :=
  if connected = false then none
  else buildMessageFrame event data frameType

/-- `strings.Trim(s, "\x00")`: remove leading and trailing NUL bytes. -/
def trimNul (l : List Byte) : List Byte :=
  ((l.dropWhile fun b => b == 0).reverse.dropWhile fun b => b == 0).reverse

/-- The event-name extraction of the server read loop (`listen`, MESSAGE
case): `eventLen := BigEndian.Uint16(frame[1:3])` and
`eventName := Trim(string(frame[3 : 3+eventLen]), "\x00")`.  The index
`3 + eventLen` is computed in uint16 and wraps modulo 2^16, so for
`eventLen ≥ 65533` it comes out below 3 and the slice panics.  `none`
models the guard `frameLen > 2` failing or the Go slice panic when the
bounds check `3 ≤ nameEnd ≤ frameLen` fails. -/
def parseEventName (frame : List Byte) : Option (List Byte) :=
  if 2 < frame.length then
    let eventLen := beVal ((frame.drop 1).take 2)
    let nameEnd := (3 + eventLen) % 2 ^ 16
    if 3 ≤ nameEnd ∧ nameEnd ≤ frame.length then
      some (trimNul ((frame.drop 3).take (nameEnd - 3)))
    else none
  else none

/-- The name a peer running the server read loop extracts from the MESSAGE
frame that `send` produced for the given event name. -/
def deliveredName (event data : List Byte) : Option (List Byte) :=
  match send true event data 90 with
  | none => none
  | some frame => parseEventName frame

/-- The server-side `Socket` state touched by the disconnection lifecycle:
the `connected` flag, whether the stream has been closed, membership in
the owning server's socket set, how many times the server's disconnect
callback has been invoked for this socket, and the heartbeat bookkeeping
field the read loop writes. -/
structure Socket where
  connected : Bool
  closed : Bool
  inSet : Bool
  disconnectFired : Nat
  lastHeartbeatAck : Int
  deriving DecidableEq

/-- Server `Socket.Disconnect`: sets the `connected` flag to false and
nothing else. -/
def Disconnect (s : Socket) : Socket := { s with connected := false }

/-- Server `removeSocket`: if the socket is still in the set, clear its
flag and delete it. -/
def removeSocket (s : Socket) : Socket :=
  if s.inSet then { s with connected := false, inSet := false } else s

/-- The state a received frame's handler applies inside the server read
loop: a HEARTBEAT_ACK (type byte 92) stores the current time; every other
frame leaves the modelled fields unchanged (MESSAGE dispatch and the
HEARTBEAT reply touch none of them). -/
def processFrame (now : Int) (frame : List Byte) (s : Socket) : Socket :=
  match frame with
  | [] => s
  | b :: _ => if b = 92 then { s with lastHeartbeatAck := now } else s

/-- The server read loop (`listen`): while `connected`, read a frame —
the input list enumerates the successful reads, its end the read error —
and process it. -/
def listenLoop (input : List (Int × List Byte)) (s : Socket) : Socket :=
  if s.connected = false then s
  else
    match input with
    | [] => s
    | (now, frame) :: rest => listenLoop rest (processFrame now frame s)

/-- The epilogue of the server read loop: close the stream, remove the
socket from the server's set, invoke the disconnect callback. -/
def listenFinish (s : Socket) : Socket :=
  let s1 := removeSocket { s with closed := true }
  { s1 with disconnectFired := s1.disconnectFired + 1 }

/-- Server `listen`, whole: the read loop followed by its epilogue. -/
def listen (input : List (Int × List Byte)) (s : Socket) : Socket :=
  listenFinish (listenLoop input s)

/-- Server `Broadcast` (and `BroadcastSync`): the sessions of the owning
server's set that are emitted to — every entry whose id differs from the
caller's. -/
def broadcastTargets (sockets : List (Nat × Nat)) (callerId : Nat) :
    List (Nat × Nat) :=
  sockets.filter fun p => p.1 != callerId

/-- Server `envokeEvent` / dispatch: look the event up in the registry and
call the handler only if one is registered; an unknown event is silently
dropped.  A registered-but-nil handler would be dereferenced, hence
`none` in that (unreachable from `New`) case. -/
def envokeEvent (events : List (String × Option (Unit → Unit)))
    (name : String) : Option Unit :=
  match events.find? fun p => p.1 == name with
  | some (_, some h) => some (h ())
  | some (_, none) => none
  | none => some ()

end Server

/-- The `Server` struct fields that `New` initializes: the two lifecycle
callbacks and the socket set (an `Option`, `none` being a nil map). -/
structure Server where
  connectEvent : Option (Unit → Unit)
  disconnectEvent : Option (Unit → Unit)
  sockets : Option (List (Nat × Nat))

/-- Server `New`: both callbacks are set to no-op functions and the socket
set to an empty (non-nil) map. -/
def Server.New : Server :=
  { connectEvent := some fun _ => ()
    disconnectEvent := some fun _ => ()
    sockets := some [] }

/-- Server `addSocket`: every new socket's event registry starts as an
empty (non-nil) map. -/
def Server.addSocketRegistry : Option (List (String × Option (Unit → Unit))) :=
  some []

namespace LegacyClient

/-- The legacy client `Socket` fields that its `New` initializes. -/
structure Socket where
  connectEvent : Option (Unit → Unit)
  disconnectEvent : Option (Unit → Unit)
  events : Option (List (String × Option (Unit → Unit)))

/-- Legacy client `New`: both lifecycle callbacks are set to no-op
functions and the event registry to an empty (non-nil) map. -/
def New : Socket :=
  { connectEvent := some fun _ => ()
    disconnectEvent := some fun _ => ()
    events := some [] }

end LegacyClient

/-! ## Codec lemmas -/

theorem be16_length (n : Nat) : (be16 n).length = 2 := rfl

theorem be32_length (n : Nat) : (be32 n).length = 4 := rfl

theorem beVal_be16 (n : Nat) (h : n < 2 ^ 16) : beVal (be16 n) = n := by
  simp only [be16, beVal, List.foldl]
  omega

theorem beVal_be32 (n : Nat) (h : n < 2 ^ 32) : beVal (be32 n) = n := by
  simp only [be32, beVal, List.foldl]
  omega

/-- An encoded MESSAGE frame is the raw-frame layout applied to the
structured MESSAGE payload `[2-byte event length][event][data]`. -/
theorem Client.emit_eq_buildFrame (event data : List Byte)
    (hev : event.length ≤ 65534) :
    Client.emit true event data
      = some (Client.buildFrame (be16 event.length ++ event ++ data) 90) := by
  simp only [Client.emit, Client.buildFrame]
  rw [if_neg (by simp), if_neg (by omega)]
  have hlen : (be16 event.length ++ event ++ data).length
      = 2 + event.length + data.length := by
    simp [be16]; omega
  rw [hlen]

/-- Decoding a raw frame whose length field fits 32 bits recovers the type
byte and the payload. -/
theorem Client.readFrame_buildFrame (data : List Byte) (t : Byte)
    (h : data.length + 1 < 2 ^ 32) :
    Client.readFrame (Client.buildFrame data t) = some (t, data) := by
  have h4 : (be32 (data.length + 1)).length = 4 := be32_length _
  have htake : List.take (data.length + 1) (t :: data) = t :: data :=
    List.take_of_length_le (by simp)
  simp only [Client.readFrame, Client.buildFrame, List.append_assoc,
    List.singleton_append, List.take_left' h4, List.drop_left' h4,
    beVal_be32 _ h, htake, List.length_append, List.length_cons, h4]
  simp

/-- Splitting an encoded MESSAGE payload recovers the event name and the
data, provided the name is short enough that the uint16 computation of
`eventEnd` does not wrap (at most 65533 bytes) and the payload is longer
than 3 bytes. -/
theorem Client.processMessageFrame_encoded (event data : List Byte)
    (hev : event.length ≤ 65533) (hmin : 2 ≤ event.length + data.length) :
    Client.processMessageFrame (be16 event.length ++ event ++ data)
      = some (event, data) := by
  have h2 : (be16 event.length).length = 2 := be16_length _
  have hmod : (2 + event.length) % 2 ^ 16 = 2 + event.length := by omega
  have hdrop : (be16 event.length ++ (event ++ data)).drop (2 + event.length)
      = data := by
    rw [← List.append_assoc, List.drop_left' (by simp [be16]; omega)]
  simp only [Client.processMessageFrame, List.append_assoc,
    List.take_left' h2, beVal_be16 event.length (by omega),
    List.drop_left' h2, List.length_append, h2, hmod, hdrop]
  rw [if_pos (by omega), if_pos (by omega), Nat.add_sub_cancel_left,
    List.take_left]

/-- The uint16 wrap in `processMessageFrame`, concretely: a payload whose
event-length field reads 65534 makes Go compute `eventEnd = 0` and panic
on `frame[2:0]`; the model returns `none` there. -/
theorem Client.processMessageFrame_eventEnd_wraps :
    Client.processMessageFrame [255, 254, 0, 0] = none := by decide

/-! ## Claim C1: MESSAGE round trip -/

/-- Claim C1 (amended): for every `(event, data)` pair whose event name is
at most 65533 bytes (the encoder accepts up to 65534, but the decoder's
uint16 computation of the event end wraps there and panics), whose
combined event-name and data length is at least 2 bytes, and whose frame
fits the 4-byte length field, the client encoder emits a header followed
by the data bytes verbatim — the header depends on the data only through
its length, so no byte is escaped or reinterpreted and no delimiter is
scanned for — and decoding the encoded MESSAGE frame yields exactly
`(event, data)`, whatever byte values the data contains. -/
theorem Client.message_roundtrip (event data : List Byte)
    (hev : event.length ≤ 65533)
    (hmin : 2 ≤ event.length + data.length)
    (hfit : event.length + data.length + 3 < 2 ^ 32) :
    Client.emit true event data
        = some (Client.msgHeader event data.length ++ data) ∧
    (Client.emit true event data).bind Client.decodeMessage
        = some (event, data) := by
  have hpay : (be16 event.length ++ event ++ data).length + 1 < 2 ^ 32 := by
    simp [be16]; omega
  rw [Client.emit_eq_buildFrame event data (by omega)]
  constructor
  · simp only [Client.buildFrame, Client.msgHeader, Option.some.injEq]
    have hlen : (be16 event.length ++ event ++ data).length
        = 2 + event.length + data.length := by simp [be16]; omega
    rw [hlen]
    simp [List.append_assoc]
  · show Client.decodeMessage
        (Client.buildFrame (be16 event.length ++ event ++ data) 90)
      = some (event, data)
    unfold Client.decodeMessage
    rw [Client.readFrame_buildFrame _ _ hpay]
    show (if (90 : Byte) = 90
        then Client.processMessageFrame (be16 event.length ++ event ++ data)
        else none)
      = some (event, data)
    rw [if_pos rfl]
    exact Client.processMessageFrame_encoded event data (by omega) hmin

/-- Witness for C1 at the event name `ping` and a data block containing
every byte value 0–255. -/
theorem Client.message_roundtrip_witness :
    Client.emit true [112, 105, 110, 103] (List.range 256)
        = some (Client.msgHeader [112, 105, 110, 103] 256 ++ List.range 256) ∧
    (Client.emit true [112, 105, 110, 103] (List.range 256)).bind
        Client.decodeMessage
      = some ([112, 105, 110, 103], List.range 256) := by
  have h := Client.message_roundtrip [112, 105, 110, 103] (List.range 256)
    (by simp) (by simp) (by simp)
  simpa using h

/-- Claim C1 as stated is false at `event = []`, `data = []` (an event name
of at most 65535 bytes): the encoder produces a frame, but decoding it
yields nothing rather than the pair, because the read loop drops MESSAGE
payloads of at most 3 bytes. -/
theorem Client.message_roundtrip_counterexample :
    (Client.emit true [] []).isSome = true ∧
    (Client.emit true [] []).bind Client.decodeMessage = none := by decide

/-! ## Claim C4: frame layout -/

/-- Claim C4: a raw frame is exactly `[4-byte big-endian length][1-byte
type][payload]`, the length field decoding to `len(payload) + 1`, and a
MESSAGE frame is that raw layout applied to a payload that starts with the
event name's 2-byte big-endian length, then the name bytes, then the
data. -/
theorem Client.frame_layout (t : Byte) (event data : List Byte)
    (hfit : data.length + 1 < 2 ^ 32) (hev : event.length ≤ 65534) :
    (Client.buildFrame data t).length = 5 + data.length ∧
    beVal ((Client.buildFrame data t).take 4) = data.length + 1 ∧
    (Client.buildFrame data t).drop 4 = t :: data ∧
    Client.emit true event data
        = some (Client.buildFrame (be16 event.length ++ event ++ data) 90) ∧
    beVal ((be16 event.length ++ event ++ data).take 2) = event.length := by
  refine ⟨?_, ?_, ?_, Client.emit_eq_buildFrame event data hev, ?_⟩
  · simp [Client.buildFrame, be32]
    omega
  · rw [Client.buildFrame, List.append_assoc,
      List.take_left' (be32_length _), beVal_be32 _ hfit]
  · rw [Client.buildFrame, List.append_assoc,
      List.drop_left' (be32_length _), List.singleton_append]
  · rw [List.append_assoc, List.take_left' (be16_length _),
      beVal_be16 _ (by omega)]

/-- Witness for C4 at frame type 91, event name `e`, payload `[1, 2]`. -/
theorem Client.frame_layout_witness :
    (Client.buildFrame [1, 2] 91).length = 5 + 2 ∧
    beVal ((Client.buildFrame [1, 2] 91).take 4) = 3 ∧
    (Client.buildFrame [1, 2] 91).drop 4 = 91 :: [1, 2] ∧
    Client.emit true [101] [1, 2]
        = some (Client.buildFrame (be16 1 ++ [101] ++ [1, 2]) 90) ∧
    beVal ((be16 1 ++ [101] ++ [1, 2]).take 2) = 1 := by
  have h := Client.frame_layout 91 [101] [1, 2] (by decide) (by decide)
  simpa using h

/-! ## Claim C5: reading frames from a chunked stream -/

/-- Claim C5: the read loop does block across chunk boundaries for the body
bytes — a HEARTBEAT frame whose 5th byte arrives in a second chunk is
decoded — but a partial delivery of the 4-byte length prefix is treated as
a failure even though the rest of the stream is still to come: the same
well-formed frame split `[0,0] / [0,1,91]` is abandoned. -/
theorem Client.listen_short_prefix_read_bug :
    Client.listenStep [[0, 0, 0, 1], [91]] = some (91, [], []) ∧
    Client.listenStep [[0, 0], [0, 1, 91]] = none ∧
    [0, 0] ++ [0, 1, 91] = Client.buildFrame [] 91 := by decide

/-! ## Claim C2: heartbeat staleness check -/

/-- Claim C2 fails on the code: an acknowledgement timestamp that predates
`t0` can never satisfy `lastAck - t0 > interval`, so once any HEARTBEAT_ACK
has been received the monitor never declares the session dead, no matter
how stale the acknowledgement is.  Concretely, with `lastAck = 1000`,
`t0 = 10000` and a 5000 ms interval, the acknowledgement predates `t0` by
9000 ms > 5000 ms, yet the check reports the session alive. -/
theorem heartbeatDead_misses_stale_ack :
    (∀ lastAck start : Int, 0 < lastAck → lastAck ≤ start →
      heartbeatDead lastAck start 5000 = false) ∧
    heartbeatDead 1000 10000 5000 = false ∧
    (1000 : Int) ≠ 0 ∧ (10000 : Int) - 1000 > 5000 := by
  refine ⟨fun lastAck start h1 h2 => ?_, by decide, by decide, by decide⟩
  simp only [heartbeatDead, Bool.or_eq_false_iff, beq_eq_false_iff_ne,
    decide_eq_false_iff_not]
  constructor
  · omega
  · omega

/-- Witness for the universal part of the heartbeat divergence theorem at
`lastAck = 1000`, `t0 = 10000`. -/
theorem heartbeatDead_misses_stale_ack_witness :
    heartbeatDead 1000 10000 5000 = false :=
  heartbeatDead_misses_stale_ack.1 1000 10000 (by decide) (by decide)

/-! ## Claim C6: event-name length gate -/

/-- Claim C6 (amended): an event name longer than 65534 bytes is rejected
by the frame builder before any bytes are written — `send` writes
nothing — and every name of at most 65534 bytes is accepted. -/
theorem Server.event_name_length_gate (event data : List Byte) (t : Byte) :
    (65534 < event.length →
      Server.buildMessageFrameHeader event t = none ∧
      Server.send true event data t = none) ∧
    (event.length ≤ 65534 →
      (Server.buildMessageFrameHeader event t).isSome = true ∧
      (Server.send true event data t).isSome = true) := by
  constructor
  · intro h
    have h1 : Server.buildMessageFrameHeader event t = none := by
      unfold Server.buildMessageFrameHeader
      rw [if_pos h]
    refine ⟨h1, ?_⟩
    unfold Server.send Server.buildMessageFrame
    rw [if_neg (by simp), h1]
  · intro h
    have h1 : Server.buildMessageFrameHeader event t
        = some ([t] ++ be16 (Server.padEventName
            (Server.stripNewlines event)).length
          ++ Server.padEventName (Server.stripNewlines event)) := by
      unfold Server.buildMessageFrameHeader
      rw [if_neg (by omega)]
    constructor
    · rw [h1]; rfl
    · unfold Server.send Server.buildMessageFrame
      rw [if_neg (by simp), h1]
      rfl

/-- Witness for C6: a 65535-byte name is rejected and nothing is written; a
1-byte name is accepted. -/
theorem Server.event_name_length_gate_witness :
    (Server.buildMessageFrameHeader (List.replicate 65535 97) 90 = none ∧
      Server.send true (List.replicate 65535 97) [] 90 = none) ∧
    ((Server.buildMessageFrameHeader [97] 90).isSome = true ∧
      (Server.send true [97] [] 90).isSome = true) :=
  ⟨(Server.event_name_length_gate (List.replicate 65535 97) [] 90).1
      (by rw [List.length_replicate]; omega),
    (Server.event_name_length_gate [97] [] 90).2 (by decide)⟩

/-- Claim C6 as stated is false: an event name of exactly 65535 bytes — at
most 65535 — is rejected by the builder rather than accepted, because the
source bound is `1<<16 - 2 = 65534`. -/
theorem Server.event_name_length_counterexample :
    Server.buildMessageFrameHeader (List.replicate 65535 97) 90 = none := by
  unfold Server.buildMessageFrameHeader
  rw [if_pos (by rw [List.length_replicate]; omega)]

/-! ## Claim C7: Disconnect transitions and idempotence -/

/-- Claim C7 (amended): on both sides `Disconnect` forces `connected` to
false and a second call leaves the state unchanged; the client's
`disconnect` also closes the transport, while the server-side `Disconnect`
leaves the stream exactly as it was — it is closed only when the read loop
exits. -/
theorem Disconnect_flag_and_idempotence (s : Server.Socket)
    (c : Client.Socket) :
    (Server.Disconnect s).connected = false ∧
    Server.Disconnect (Server.Disconnect s) = Server.Disconnect s ∧
    (Server.Disconnect s).closed = s.closed ∧
    (Client.disconnect c).connected = false ∧
    (Client.disconnect c).closed = true ∧
    Client.disconnect (Client.disconnect c) = Client.disconnect c := by
  refine ⟨rfl, rfl, rfl, ?_, ?_, ?_⟩
  · cases hc : c.connected <;> simp [Client.disconnect, hc]
  · cases hc : c.connected <;> simp [Client.disconnect, hc]
  · cases hc : c.connected <;> simp [Client.disconnect, hc]

/-- Claim C7 as stated is false on the server side: `Disconnect()` flips
the flag but does not close the transport stream. -/
theorem Server.Disconnect_leaves_stream_open :
    (Server.Disconnect
      { connected := true, closed := false, inSet := true,
        disconnectFired := 0, lastHeartbeatAck := 0 }).closed = false := rfl

/-! ## Claim C3: the disconnect callback fires exactly once -/

theorem Server.processFrame_disconnectFired (now : Int) (frame : List Byte)
    (s : Server.Socket) :
    (Server.processFrame now frame s).disconnectFired = s.disconnectFired := by
  cases frame with
  | nil => rfl
  | cons b l => by_cases hb : b = 92 <;> simp [Server.processFrame, hb]

theorem Server.listenLoop_disconnectFired (input : List (Int × List Byte)) :
    ∀ s : Server.Socket,
      (Server.listenLoop input s).disconnectFired = s.disconnectFired := by
  induction input with
  | nil =>
    intro s
    unfold Server.listenLoop
    split <;> rfl
  | cons hd tl ih =>
    intro s
    unfold Server.listenLoop
    split
    · rfl
    · cases hd with
      | mk now frame =>
        show (Server.listenLoop tl (Server.processFrame now frame s)).disconnectFired
          = s.disconnectFired
        rw [ih, Server.processFrame_disconnectFired]

theorem Server.removeSocket_disconnectFired (s : Server.Socket) :
    (Server.removeSocket s).disconnectFired = s.disconnectFired := by
  unfold Server.removeSocket
  split <;> rfl

/-- Claim C3: the disconnect callback fires exactly once per session.  On
the client, any number of `disconnect` calls — the common path for an
explicit `Disconnect()`, a transport failure ending the read loop, and a
heartbeat timeout — dispatch the `disconnection` event exactly once.  On
the server, the read-loop epilogue invokes the disconnect callback exactly
once whatever frames were received, and the explicit `Disconnect()` itself
never invokes it (the single invocation happens when `listen` returns). -/
theorem disconnect_callback_exactly_once :
    (∀ n : Nat, 1 ≤ n →
      (Client.disconnect^[n]
          { connected := true, closed := false, disconnectionFired := 0
            : Client.Socket }).disconnectionFired = 1) ∧
    (∀ (input : List (Int × List Byte)) (s : Server.Socket),
      s.disconnectFired = 0 → (Server.listen input s).disconnectFired = 1) ∧
    (∀ s : Server.Socket,
      (Server.Disconnect s).disconnectFired = s.disconnectFired) := by
  refine ⟨?_, ?_, fun s => rfl⟩
  · intro n hn
    obtain ⟨m, rfl⟩ : ∃ m, n = m + 1 := ⟨n - 1, by omega⟩
    rw [Function.iterate_succ_apply]
    have h0 : Client.disconnect
        { connected := true, closed := false, disconnectionFired := 0 }
        = { connected := false, closed := true, disconnectionFired := 1 } := by
      simp [Client.disconnect]
    have hfix : ∀ k, Client.disconnect^[k]
        ({ connected := false, closed := true, disconnectionFired := 1 }
          : Client.Socket)
        = { connected := false, closed := true, disconnectionFired := 1 } := by
      intro k
      induction k with
      | zero => rfl
      | succ j ihj =>
        rw [Function.iterate_succ_apply,
          show Client.disconnect
              { connected := false, closed := true, disconnectionFired := 1 }
            = { connected := false, closed := true, disconnectionFired := 1 }
            by simp [Client.disconnect],
          ihj]
    rw [h0, hfix]
  · intro input s h
    show (Server.listenFinish (Server.listenLoop input s)).disconnectFired = 1
    show (Server.removeSocket
        { Server.listenLoop input s with closed := true }).disconnectFired + 1
      = 1
    rw [Server.removeSocket_disconnectFired]
    show (Server.listenLoop input s).disconnectFired + 1 = 1
    rw [Server.listenLoop_disconnectFired, h]

/-- Witness for C3: two client `disconnect` calls (a transport failure
followed by an explicit `Disconnect()`) dispatch `disconnection` once, and
a server read loop that saw one heartbeat-ack frame fires its callback
once. -/
theorem disconnect_callback_exactly_once_witness :
    (Client.disconnect^[2]
        { connected := true, closed := false, disconnectionFired := 0
          : Client.Socket }).disconnectionFired = 1 ∧
    (Server.listen [(5, [92])]
        { connected := true, closed := false, inSet := true,
          disconnectFired := 0, lastHeartbeatAck := 0 }).disconnectFired = 1 :=
  ⟨disconnect_callback_exactly_once.1 2 (by decide),
    disconnect_callback_exactly_once.2.1 [(5, [92])] _ rfl⟩

/-! ## Claim C8: broadcast skips the caller -/

/-- Claim C8: `Broadcast` emits to exactly the sessions of the server's set
whose id differs from the caller's — every other session receives the
message and the caller's own session never does, so its own handler is
never fired by its own broadcast. -/
theorem Server.broadcast_skips_caller (sockets : List (Nat × Nat))
    (callerId : Nat) (p : Nat × Nat) :
    (p ∈ Server.broadcastTargets sockets callerId ↔
      p ∈ sockets ∧ p.1 ≠ callerId) ∧
    (p.1 = callerId → p ∉ Server.broadcastTargets sockets callerId) := by
  have hmem : p ∈ Server.broadcastTargets sockets callerId ↔
      p ∈ sockets ∧ p.1 ≠ callerId := by
    simp [Server.broadcastTargets, List.mem_filter, bne_iff_ne]
  exact ⟨hmem, fun he hm => (hmem.mp hm).2 he⟩

/-- Witness for C8 on a three-session set with caller id 2: the caller's
entry is excluded and another session's entry is included. -/
theorem Server.broadcast_skips_caller_witness :
    (2, 20) ∉ Server.broadcastTargets [(1, 10), (2, 20), (3, 30)] 2 ∧
    (3, 30) ∈ Server.broadcastTargets [(1, 10), (2, 20), (3, 30)] 2 :=
  ⟨(Server.broadcast_skips_caller [(1, 10), (2, 20), (3, 30)] 2 (2, 20)).2
      rfl,
    (Server.broadcast_skips_caller [(1, 10), (2, 20), (3, 30)] 2 (3, 30)).1.mpr
      (by decide)⟩

/-! ## Claim C9: newline stripping and NUL padding of event names -/

theorem Server.padEventName_eq_append (e : List Byte) :
    ∃ k, Server.padEventName e = e ++ List.replicate k 0 := by
  by_cases h1 : e.length / 256 = 10
  · exact ⟨256 - e.length % 256, by simp [Server.padEventName, h1]⟩
  · by_cases h2 : e.length % 256 = 10
    · exact ⟨1, by simp [Server.padEventName, h1, h2]⟩
    · exact ⟨0, by simp [Server.padEventName, h1, h2]⟩

theorem Server.padEventName_pads (e : List Byte)
    (h : e.length / 256 = 10 ∨ e.length % 256 = 10) :
    ∃ k, 1 ≤ k ∧ Server.padEventName e = e ++ List.replicate k 0 := by
  by_cases h1 : e.length / 256 = 10
  · exact ⟨256 - e.length % 256, by omega,
      by simp [Server.padEventName, h1]⟩
  · have h2 : e.length % 256 = 10 := h.resolve_left h1
    exact ⟨1, by omega, by simp [Server.padEventName, h1, h2]⟩

theorem Server.padEventName_length_lt (e : List Byte)
    (h : e.length ≤ 65534) : (Server.padEventName e).length < 2 ^ 16 := by
  unfold Server.padEventName
  split
  · simp
    omega
  · split
    · simp
      omega
    · omega

theorem Server.not_mem_stripNewlines (e : List Byte) :
    10 ∉ Server.stripNewlines e := by
  simp [Server.stripNewlines, List.mem_filter]

theorem Server.trimNul_subset (l : List Byte) : Server.trimNul l ⊆ l := by
  intro a ha
  unfold Server.trimNul at ha
  rw [List.mem_reverse] at ha
  have h1 := (List.dropWhile_sublist (fun b : Byte => b == 0)).subset ha
  rw [List.mem_reverse] at h1
  exact (List.dropWhile_sublist _).subset h1

/-- Parsing the name field of a frame laid out as
`[type][2-byte big-endian name length][name][rest]` recovers the
NUL-trimmed name, provided the name is short enough that the uint16
computation of the slice end does not wrap (at most 65532 bytes). -/
theorem Server.parseEventName_encoded (name rest : List Byte) (t : Byte)
    (h : name.length ≤ 65532) :
    Server.parseEventName (t :: (be16 name.length ++ (name ++ rest)))
      = some (Server.trimNul name) := by
  have h2 : (be16 name.length).length = 2 := be16_length _
  have hmod : (3 + name.length) % 2 ^ 16 = 3 + name.length := by omega
  simp only [Server.parseEventName, List.drop_succ_cons, List.drop_zero,
    List.take_left' h2, beVal_be16 name.length (by omega),
    List.drop_left' h2, List.length_cons, List.length_append, h2, hmod]
  rw [if_pos (by omega), if_pos (by omega), Nat.add_sub_cancel_left,
    List.take_left]

/-- When the name length is 65533 or more (but still a uint16 value), the
`3 + eventLen` slice index wraps below 3 and the server read loop panics:
the parse yields nothing. -/
theorem Server.parseEventName_wrap (name rest : List Byte) (t : Byte)
    (h1 : 65533 ≤ name.length) (h2 : name.length < 2 ^ 16) :
    Server.parseEventName (t :: (be16 name.length ++ (name ++ rest)))
      = none := by
  have hb : (be16 name.length).length = 2 := be16_length _
  simp only [Server.parseEventName, List.drop_succ_cons, List.drop_zero,
    List.take_left' hb, beVal_be16 name.length h2,
    List.length_cons, List.length_append, hb]
  rw [if_pos (by omega), if_neg (by omega)]

/-- The uint16 wrap in `parseEventName`, concretely: a frame whose
event-length field reads 65533 makes Go compute the slice end as 0 and
panic on `frame[3:0]`; the model returns `none` there. -/
theorem Server.parseEventName_nameEnd_wraps :
    Server.parseEventName [90, 255, 253] = none := by decide

/-- The frame produced by `send` puts the server read loop's extraction in
front of the laid-out name: `deliveredName` is `parseEventName` of
`[90][2-byte big-endian padded length][padded name][escaped data][10]`. -/
theorem Server.deliveredName_frame (event data : List Byte)
    (hev : event.length ≤ 65534) :
    Server.deliveredName event data
      = Server.parseEventName
          (90 :: (be16 (Server.padEventName (Server.stripNewlines event)).length
            ++ (Server.padEventName (Server.stripNewlines event)
              ++ (Server.escapeData data ++ [10])))) := by
  have hhdr : Server.buildMessageFrameHeader event 90
      = some ([90] ++ be16 (Server.padEventName
            (Server.stripNewlines event)).length
        ++ Server.padEventName (Server.stripNewlines event)) := by
    unfold Server.buildMessageFrameHeader
    rw [if_neg (by omega)]
  have hsend : Server.send true event data 90
      = some (([90] ++ be16 (Server.padEventName
            (Server.stripNewlines event)).length
          ++ Server.padEventName (Server.stripNewlines event))
        ++ Server.escapeData data ++ [10]) := by
    unfold Server.send Server.buildMessageFrame
    rw [if_neg (by simp), hhdr]
  unfold Server.deliveredName
  rw [hsend]
  show Server.parseEventName (([90] ++ be16 (Server.padEventName
        (Server.stripNewlines event)).length
      ++ Server.padEventName (Server.stripNewlines event))
    ++ Server.escapeData data ++ [10]) = _
  have hshape : ([90] ++ be16 (Server.padEventName
        (Server.stripNewlines event)).length
      ++ Server.padEventName (Server.stripNewlines event))
      ++ Server.escapeData data ++ [10]
      = 90 :: (be16 (Server.padEventName (Server.stripNewlines event)).length
        ++ (Server.padEventName (Server.stripNewlines event)
          ++ (Server.escapeData data ++ [10]))) := by
    simp [List.append_assoc]
  rw [hshape]

/-- The name the server read loop extracts from a frame produced by `send`
is the NUL-trimmed padded stripped name, provided the padded name is short
enough that the uint16 slice index does not wrap. -/
theorem Server.deliveredName_eq (event data : List Byte)
    (hev : event.length ≤ 65534)
    (hn : (Server.padEventName (Server.stripNewlines event)).length ≤ 65532) :
    Server.deliveredName event data
      = some (Server.trimNul
          (Server.padEventName (Server.stripNewlines event))) := by
  rw [Server.deliveredName_frame event data hev,
    Server.parseEventName_encoded _ (Server.escapeData data ++ [10]) 90 hn]

/-- When the padded name is 65533 bytes or longer, the receiving read loop
panics on the wrapped slice index and extracts nothing. -/
theorem Server.deliveredName_none (event data : List Byte)
    (hev : event.length ≤ 65534)
    (hn : 65533 ≤ (Server.padEventName (Server.stripNewlines event)).length) :
    Server.deliveredName event data = none := by
  have hlen1 : (Server.stripNewlines event).length ≤ 65534 :=
    le_trans (List.length_filter_le _ _) hev
  rw [Server.deliveredName_frame event data hev,
    Server.parseEventName_wrap _ (Server.escapeData data ++ [10]) 90 hn
      (Server.padEventName_length_lt (Server.stripNewlines event) hlen1)]

/-- Claim C9: for every event name of accepted length the send path
reports no error; the name embedded in the frame is the caller's name with
every newline byte silently removed, extended only by NUL padding; the
padding is non-empty exactly when the stripped name's length would put the
byte value 10 into the 2-byte length field; when the padded name is short
enough for the receiver's uint16 slice index not to wrap, the receiving
read loop extracts the NUL-trimmed padded name; and whenever the caller's
name contained a newline, what the receiving read loop extracts — the
mangled name, or nothing at all when the wrapped index panics — is never
the name the caller supplied. -/
theorem Server.newline_mangling (event data : List Byte)
    (hev : event.length ≤ 65534) :
    (Server.send true event data 90).isSome = true ∧
    (∃ k, Server.padEventName (Server.stripNewlines event)
        = Server.stripNewlines event ++ List.replicate k 0) ∧
    ((Server.stripNewlines event).length / 256 = 10 ∨
        (Server.stripNewlines event).length % 256 = 10 →
      ∃ k, 1 ≤ k ∧ Server.padEventName (Server.stripNewlines event)
        = Server.stripNewlines event ++ List.replicate k 0) ∧
    ((Server.padEventName (Server.stripNewlines event)).length ≤ 65532 →
      Server.deliveredName event data
        = some (Server.trimNul
            (Server.padEventName (Server.stripNewlines event)))) ∧
    (10 ∈ event → Server.deliveredName event data ≠ some event) := by
  have h10 : 10 ∉ Server.trimNul
      (Server.padEventName (Server.stripNewlines event)) := by
    intro hmem
    have hpad := Server.trimNul_subset _ hmem
    obtain ⟨k, hk⟩ := Server.padEventName_eq_append (Server.stripNewlines event)
    rw [hk] at hpad
    rcases List.mem_append.mp hpad with hl | hr
    · exact Server.not_mem_stripNewlines event hl
    · simpa using List.eq_of_mem_replicate hr
  refine ⟨?_, Server.padEventName_eq_append _, Server.padEventName_pads _,
    Server.deliveredName_eq event data hev, ?_⟩
  · have h := (Server.event_name_length_gate event data 90).2 hev
    exact h.2
  · intro hmem heq
    by_cases hn : (Server.padEventName (Server.stripNewlines event)).length
        ≤ 65532
    · rw [Server.deliveredName_eq event data hev hn] at heq
      have := Option.some.inj heq
      rw [this] at h10
      exact h10 hmem
    · rw [Server.deliveredName_none event data hev (by omega)] at heq
      exact Option.noConfusion heq

/-- Witness for C9 at the event name bytes `a \n b` and a 1-byte payload:
the sent frame drops the newline and the peer observes `a b`. -/
theorem Server.newline_mangling_witness :
    (Server.send true [97, 10, 98] [5] 90).isSome = true ∧
    (∃ k, Server.padEventName (Server.stripNewlines [97, 10, 98])
        = Server.stripNewlines [97, 10, 98] ++ List.replicate k 0) ∧
    ((Server.stripNewlines [97, 10, 98]).length / 256 = 10 ∨
        (Server.stripNewlines [97, 10, 98]).length % 256 = 10 →
      ∃ k, 1 ≤ k ∧ Server.padEventName (Server.stripNewlines [97, 10, 98])
        = Server.stripNewlines [97, 10, 98] ++ List.replicate k 0) ∧
    ((Server.padEventName (Server.stripNewlines [97, 10, 98])).length ≤ 65532 →
      Server.deliveredName [97, 10, 98] [5]
        = some (Server.trimNul
            (Server.padEventName (Server.stripNewlines [97, 10, 98])))) ∧
    (10 ∈ [97, 10, 98] →
      Server.deliveredName [97, 10, 98] [5] ≠ some [97, 10, 98]) :=
  Server.newline_mangling [97, 10, 98] [5] (by decide)

/-! ## Claim C10: constructors install no-op handlers -/

/-- Claim C10: `Server.New` and the legacy client `New` initialize the
connect and disconnect callbacks to non-nil no-op functions, the socket
set and the event registries to empty non-nil maps, so invoking the
connect or disconnect hook of a fresh instance succeeds, and dispatching
any event name on a fresh registry silently drops it without ever calling
through a nil handler. -/
theorem New_initializes_handlers :
    Server.New.connectEvent.isSome = true ∧
    Server.New.disconnectEvent.isSome = true ∧
    Server.New.sockets = some [] ∧
    (invokeHandler Server.New.connectEvent).isSome = true ∧
    (invokeHandler Server.New.disconnectEvent).isSome = true ∧
    LegacyClient.New.connectEvent.isSome = true ∧
    LegacyClient.New.disconnectEvent.isSome = true ∧
    LegacyClient.New.events = some [] ∧
    (invokeHandler LegacyClient.New.connectEvent).isSome = true ∧
    (invokeHandler LegacyClient.New.disconnectEvent).isSome = true ∧
    Server.addSocketRegistry = some [] ∧
    (∀ name : String, Server.envokeEvent [] name = some ()) :=
  ⟨rfl, rfl, rfl, rfl, rfl, rfl, rfl, rfl, rfl, rfl, rfl, fun _ => rfl⟩

end GoTcp
